import Mathlib

/-!
Shallow embedding of `src/script.js` (a fixed-timestep baseball throw
simulation with quadratic drag and a post-landing camera transition),
with theorems checking the natural-language specification against it.

Scalars are modelled as real numbers; three.js `Vector3` becomes the
`Vec3` structure below with the operations the script uses
(`clone`, `normalize`, `negate`, `multiplyScalar`, `addScaledVector`,
`lengthSq`, `length`, `lerp`), each translated from the three.js
implementation it calls.
-/

noncomputable section

namespace Baseball

/-- Model of `THREE.Vector3`: three real components. -/
@[ext] structure Vec3 where
  x : ℝ
  y : ℝ
  z : ℝ

namespace Vec3

/-- The zero vector, `new THREE.Vector3()`. -/
def zero : Vec3 := ⟨0, 0, 0⟩

/-- `v.clone()` — returns a copy; in the pure model this is the identity. -/
def clone (v : Vec3) : Vec3 := v

/-- `Vector3.lengthSq`: `x*x + y*y + z*z`. -/
def lengthSq (v : Vec3) : ℝ := v.x * v.x + v.y * v.y + v.z * v.z

/-- `Vector3.length`: `Math.sqrt(x*x + y*y + z*z)`. -/
def length (v : Vec3) : ℝ := Real.sqrt (lengthSq v)

/-- `Vector3.multiplyScalar s`: componentwise scaling. -/
def multiplyScalar (v : Vec3) (s : ℝ) : Vec3 := ⟨v.x * s, v.y * s, v.z * s⟩

/-- `Vector3.divideScalar s` is `multiplyScalar (1 / s)` in three.js. -/
def divideScalar (v : Vec3) (s : ℝ) : Vec3 := v.multiplyScalar (1 / s)

/-- `Vector3.normalize`: `divideScalar(this.length() || 1)` — the
three.js guard replaces a zero length with 1, so the zero vector
normalizes to itself. -/
def normalize (v : Vec3) : Vec3 :=
  v.divideScalar (if v.length = 0 then 1 else v.length)

/-- `Vector3.negate`: componentwise negation. -/
def negate (v : Vec3) : Vec3 := ⟨-v.x, -v.y, -v.z⟩

/-- `Vector3.add`. -/
def add (v w : Vec3) : Vec3 := ⟨v.x + w.x, v.y + w.y, v.z + w.z⟩

/-- `Vector3.addScaledVector w s`: `this + w * s`. -/
def addScaledVector (v w : Vec3) (s : ℝ) : Vec3 :=
  ⟨v.x + w.x * s, v.y + w.y * s, v.z + w.z * s⟩

/-- `Vector3.sub`: componentwise difference. -/
def sub (v w : Vec3) : Vec3 := ⟨v.x - w.x, v.y - w.y, v.z - w.z⟩

/-- `Vector3.lerp c alpha`: `this += (c - this) * alpha` componentwise. -/
def lerp (v c : Vec3) (alpha : ℝ) : Vec3 :=
  ⟨v.x + (c.x - v.x) * alpha, v.y + (c.y - v.y) * alpha,
   v.z + (c.z - v.z) * alpha⟩

end Vec3

/-- The numeric fields of the `options` object read by the physics code
(`speed`, `rho`, `C_d`, `mass`, `area`). -/
structure Options where
  speed : ℝ
  rho : ℝ
  C_d : ℝ
  mass : ℝ
  area : ℝ

/-- `const dt = 16` (milliseconds). -/
def dt : ℝ := 16

/-- `const dts = dt / 1000` — seconds per tick, computed inside `step`. -/
def dts : ℝ := dt / 1000

/-- Simulation state touched by `start` / `step` / `animateEnd`:
the ball's position (`baseball.position`), the velocity vector,
the in-flight recorded path (`pathPoints`), the finalized renderable
path (`pathGeometry`'s points), and whether the simulation has landed
(in the script, "landed" means `animateEnd` ran and cleared the
simulation interval, so no further ticks fire). -/
structure Sim where
  pos : Vec3
  vel : Vec3
  pathPoints : List Vec3
  renderPath : List Vec3
  landed : Bool

/-- `start()`: clears the running interval, empties `pathGeometry` and
`pathPoints`, resets `baseball.position` to the origin, and sets
`velocity = direction * options.speed`.  The render loop keeps
`direction` equal to the normalized `directionController.position`
(src/script.js lines 87–88), so here `start` takes the raw controller
position `d` and normalizes it. -/
def start (d : Vec3) (o : Options) (_prev : Sim) : Sim :=
  { pos := Vec3.zero
    vel := (Vec3.normalize d).multiplyScalar o.speed
    pathPoints := []
    renderPath := []
    landed := false }

/-- The velocity produced by one `step` body from old velocity `vel`:
`a_grav = (0, -9.8, 0)`;
`f_drag = velocity.clone().normalize().negate()
            .multiplyScalar(rho * velocity.lengthSq() * C_d * area / 2)`;
`a_drag = f_drag.multiplyScalar(mass)`;
`velocity.addScaledVector(a_grav, dts); velocity.addScaledVector(a_drag, dts)`. -/
def stepVel (o : Options) (vel : Vec3) : Vec3 :=
  let a_grav : Vec3 := ⟨0, -9.8, 0⟩
  let f_drag := ((vel.clone.normalize).negate).multiplyScalar
    (o.rho * vel.lengthSq * o.C_d * o.area / 2)
  let a_drag := f_drag.multiplyScalar o.mass
  (vel.addScaledVector a_grav dts).addScaledVector a_drag dts

/-- The position produced by one `step` body:
`baseball.position.addScaledVector(velocity, dts)` — with the velocity
already updated. -/
def stepPos (o : Options) (pos vel : Vec3) : Vec3 :=
  pos.addScaledVector (stepVel o vel) dts

/-- One `step()` tick.  While running it pushes a clone of the current
position onto `pathPoints`, updates velocity then position, and, when
the new vertical position is `≤ 0`, calls `animateEnd`, which clears
the simulation interval (modelled by `landed := true`) and finalizes
`pathGeometry.setFromPoints(pathPoints)` (modelled by `renderPath`).
Once landed the interval no longer fires, so `step` is the identity. -/
def step (o : Options) (s : Sim) : Sim :=
  if s.landed then s
  else
    let path' := s.pathPoints ++ [s.pos.clone]
    let vel' := stepVel o s.vel
    let pos' := stepPos o s.pos s.vel
    if pos'.y ≤ 0 then
      { pos := pos', vel := vel', pathPoints := path',
        renderPath := path', landed := true }
    else
      { pos := pos', vel := vel', pathPoints := path',
        renderPath := s.renderPath, landed := false }

/-- `n` ticks of the simulation interval. -/
def simIter (o : Options) (s : Sim) : Nat → Sim
  | 0 => s
  | n + 1 => step o (simIter o s n)

/-- Camera-transition state for `animateEnd` (src/script.js lines
142–166): the frame counter, whether the animation interval is still
live, `orbitControls.enabled`, `orbitControls.target`, the camera
position and rotation, and the values computed once on entry
(`dist = baseball.position.length()`,
`center = baseball.position.clone().multiplyScalar(0.5)`). -/
structure Trans where
  frames : Nat
  active : Bool
  orbitEnabled : Bool
  target : Vec3
  camPos : Vec3
  camRot : Vec3
  dist : ℝ
  center : Vec3

/-- Entry of `animateEnd`, given the landing position and the current
orbit target / camera: sets `orbitControls.enabled = false`, computes
`dist` and `center` from the landing position, starts the animation
interval with `frames = 0`. -/
def animateEndEnter (landing : Vec3) (target0 camPos0 camRot0 : Vec3) : Trans :=
  { frames := 0
    active := true
    orbitEnabled := false
    target := target0
    camPos := camPos0
    camRot := camRot0
    dist := landing.length
    center := landing.clone.multiplyScalar 0.5 }

/-- `const length = 40` — the fixed number of camera-transition steps. -/
def transLength : Nat := 40

/-- One firing of the `animateEnd` animation interval:
`orbitControls.target.lerp(center, 0.1)`;
`camera.position.copy(orbitControls.target)`;
`camera.position.y = Math.max(dist, 2)`;
`camera.rotation.setFromVector3(new THREE.Vector3(0, -1, 1))`;
`if (++frames === length) { clearInterval(animationInterval);
orbitControls.enabled = true; }`.
Once the interval is cleared it no longer fires, so on an inactive
state the function is the identity. -/
def animTick (t : Trans) : Trans :=
  if t.active then
    let target' := t.target.lerp t.center 0.1
    let camPos' : Vec3 := ⟨target'.x, max t.dist 2, target'.z⟩
    let camRot' : Vec3 := ⟨0, -1, 1⟩
    let frames' := t.frames + 1
    if frames' = transLength then
      { frames := frames', active := false, orbitEnabled := true,
        target := target', camPos := camPos', camRot := camRot',
        dist := t.dist, center := t.center }
    else
      { frames := frames', active := true, orbitEnabled := t.orbitEnabled,
        target := target', camPos := camPos', camRot := camRot',
        dist := t.dist, center := t.center }
  else t

/-- `k` firings of the animation interval. -/
def animIter (t : Trans) : Nat → Trans
  | 0 => t
  | k + 1 => animTick (animIter t k)

end Baseball

namespace Baseball.Timers

/-!
Timer bookkeeping model for the `setInterval` / `clearInterval` calls
of the script.  A timer id is a `Nat`; `live` is the list of currently
live intervals with their kind; `simulationInterval` is the module
variable of src/script.js line 99 (initially undefined, hence
`Option Nat`); `nextId` produces fresh ids.  This part of the model is
over `Nat`, hence fully computable.
-/

/-- Kind of an interval: the simulation stepper (`setInterval(step, dt)`)
or a camera-transition animation (`animationInterval`). -/
inductive TKind where
  | sim : TKind
  | anim : TKind
deriving DecidableEq, Repr

/-- Timer world: live intervals, the `simulationInterval` variable,
and a fresh-id counter. -/
structure TimerWorld where
  live : List (Nat × TKind)
  simulationInterval : Option Nat
  nextId : Nat
deriving DecidableEq, Repr

/-- Initial world: no intervals, `simulationInterval` undefined. -/
def init : TimerWorld := ⟨[], none, 0⟩

/-- `clearInterval(i)`: removes the interval with id `i` if live;
`clearInterval(undefined)` (`i = none`) is a no-op. -/
def clearTimer (w : TimerWorld) (i : Option Nat) : TimerWorld :=
  { w with live := w.live.filter (fun p => decide (some p.1 ≠ i)) }

/-- Timer effect of `start()`: `clearInterval(simulationInterval)` then
`simulationInterval = setInterval(step, dt)`. -/
def startTimers (w : TimerWorld) : TimerWorld :=
  let w1 := clearTimer w w.simulationInterval
  { live := w1.live ++ [(w1.nextId, TKind.sim)]
    simulationInterval := some w1.nextId
    nextId := w1.nextId + 1 }

/-- Timer effect of `animateEnd()`: `clearInterval(simulationInterval)`
then `animationInterval = setInterval(..., 16)`; the local
`animationInterval` does not touch the `simulationInterval` variable. -/
def animateEndTimers (w : TimerWorld) : TimerWorld :=
  let w1 := clearTimer w w.simulationInterval
  { live := w1.live ++ [(w1.nextId, TKind.anim)]
    simulationInterval := w1.simulationInterval
    nextId := w1.nextId + 1 }

/-- Timer effect of a camera-transition step reaching frame 40:
`clearInterval(animationInterval)` for that transition's own id. -/
def animFinishTimers (w : TimerWorld) (i : Nat) : TimerWorld :=
  clearTimer w (some i)

/-- The timer-relevant events of the script. -/
inductive TOp where
  | start : TOp
  | animEnd : TOp
  | animFinish : Nat → TOp

/-- Apply one timer event. -/
def applyOp (w : TimerWorld) : TOp → TimerWorld
  | TOp.start => startTimers w
  | TOp.animEnd => animateEndTimers w
  | TOp.animFinish i => animFinishTimers w i

/-- Run a sequence of timer events from a world. -/
def runOps (w : TimerWorld) : List TOp → TimerWorld
  | [] => w
  | op :: ops => runOps (applyOp w op) ops

/-- Number of live simulation intervals. -/
def simCount (w : TimerWorld) : Nat :=
  (w.live.filter (fun p => decide (p.2 = TKind.sim))).length

/-- The live camera-transition intervals. -/
def animTimers (w : TimerWorld) : List (Nat × TKind) :=
  w.live.filter (fun p => decide (p.2 = TKind.anim))

/-- Bookkeeping invariant: every live simulation interval's id is the
current value of `simulationInterval`, there is at most one live
simulation interval, all live ids are below `nextId`,
`simulationInterval` when defined is below `nextId`, and no live
camera-transition interval shares the `simulationInterval` id. -/
def Inv (w : TimerWorld) : Prop :=
  (∀ p ∈ w.live, p.2 = TKind.sim → some p.1 = w.simulationInterval) ∧
  simCount w ≤ 1 ∧
  (∀ p ∈ w.live, p.1 < w.nextId) ∧
  (∀ i, w.simulationInterval = some i → i < w.nextId) ∧
  (∀ p ∈ w.live, p.2 = TKind.anim → some p.1 ≠ w.simulationInterval)

end Baseball.Timers

namespace Baseball

/-- The state of the simulation variables before the first click of
"start": `baseball.position` at the origin, `velocity` the default
`new THREE.Vector3()` (zero), `pathPoints = []`, empty path geometry,
no simulation interval running. -/
def initialSim : Sim :=
  { pos := Vec3.zero, vel := Vec3.zero, pathPoints := [],
    renderPath := [], landed := false }

/-- The default values of the `options` object (src/script.js
lines 174–181). -/
def demoOptions : Options :=
  { speed := 10, rho := 1.2, C_d := 0.33, mass := 1.45e-3,
    area := Real.pi * (73e-3 / 2) ^ 2 }

/-- Options with `speed = 0` (speed is a user-editable field): the
throw then drops from the origin and lands on the very first tick, a
convenient concrete run. -/
def dropOptions : Options :=
  { speed := 0, rho := 1.2, C_d := 0.33, mass := 1.45e-3, area := 1 }

/-- `a_grav`, the gravitational acceleration `(0, -9.8, 0)`. -/
def gravity : Vec3 := ⟨0, -9.8, 0⟩

/-- Modelled from the claim's wording: the drag term, a vector of
magnitude `0.5 * rho * |v|² * C_d * area` multiplied by `mass`,
directed opposite the old velocity `v` (unit direction via the same
guarded normalization the library provides). -/
def specDragAccel (o : Options) (v : Vec3) : Vec3 :=
  ((Vec3.normalize v).negate).multiplyScalar
    (0.5 * o.rho * v.lengthSq * o.C_d * o.area * o.mass)

/-! Basic lemmas about one tick while the simulation is running. -/

lemma step_vel_of_running {o : Options} {s : Sim} (h : s.landed = false) :
    (step o s).vel = stepVel o s.vel := by
  simp only [step, h, Bool.false_eq_true, if_false]
  split <;> rfl

lemma step_pos_of_running {o : Options} {s : Sim} (h : s.landed = false) :
    (step o s).pos = stepPos o s.pos s.vel := by
  simp only [step, h, Bool.false_eq_true, if_false]
  split <;> rfl

lemma step_pathPoints_of_running {o : Options} {s : Sim} (h : s.landed = false) :
    (step o s).pathPoints = s.pathPoints ++ [s.pos] := by
  simp only [step, h, Bool.false_eq_true, if_false]
  split <;> rfl

lemma step_landed_iff {o : Options} {s : Sim} (h : s.landed = false) :
    (step o s).landed = true ↔ (stepPos o s.pos s.vel).y ≤ 0 := by
  simp only [step, h, Bool.false_eq_true, if_false]
  split
  · next h' => simpa using h'
  · next h' => simpa using h'

lemma step_renderPath_of_landing {o : Options} {s : Sim}
    (h : s.landed = false) (h' : (step o s).landed = true) :
    (step o s).renderPath = (step o s).pathPoints := by
  simp only [step, h, Bool.false_eq_true, if_false] at h' ⊢
  split
  · rfl
  · next hy =>
    rw [if_neg hy] at h'
    simp at h'

lemma step_of_landed {o : Options} {s : Sim} (h : s.landed = true) :
    step o s = s := by
  simp only [step, h, if_true]

/-! Length lemmas for `Vec3`. -/

lemma lengthSq_nonneg (v : Vec3) : 0 ≤ v.lengthSq :=
  add_nonneg (add_nonneg (mul_self_nonneg _) (mul_self_nonneg _)) (mul_self_nonneg _)

lemma length_nonneg (v : Vec3) : 0 ≤ v.length :=
  Real.sqrt_nonneg _

lemma lengthSq_eq_zero_iff {v : Vec3} : v.lengthSq = 0 ↔ v = Vec3.zero := by
  constructor
  · intro h
    have hx := mul_self_nonneg v.x
    have hy := mul_self_nonneg v.y
    have hz := mul_self_nonneg v.z
    have h' : v.x * v.x + v.y * v.y + v.z * v.z = 0 := h
    ext <;> simp only [Vec3.zero] <;> nlinarith
  · intro h
    subst h
    simp [Vec3.lengthSq, Vec3.zero]

lemma length_eq_zero_iff {v : Vec3} : v.length = 0 ↔ v = Vec3.zero := by
  rw [Vec3.length, Real.sqrt_eq_zero (lengthSq_nonneg v), lengthSq_eq_zero_iff]

lemma length_multiplyScalar (v : Vec3) (c : ℝ) :
    (v.multiplyScalar c).length = |c| * v.length := by
  unfold Vec3.length Vec3.lengthSq Vec3.multiplyScalar
  rw [show v.x * c * (v.x * c) + v.y * c * (v.y * c) + v.z * c * (v.z * c)
      = c ^ 2 * (v.x * v.x + v.y * v.y + v.z * v.z) by ring]
  rw [Real.sqrt_mul (sq_nonneg c), Real.sqrt_sq_eq_abs]

lemma length_normalize {v : Vec3} (hv : v ≠ Vec3.zero) :
    v.normalize.length = 1 := by
  have h0 : v.length ≠ 0 := fun h => hv (length_eq_zero_iff.mp h)
  have hpos : 0 < v.length := lt_of_le_of_ne (length_nonneg v) (Ne.symm h0)
  unfold Vec3.normalize Vec3.divideScalar
  rw [if_neg h0, length_multiplyScalar,
    abs_of_pos (by positivity : (0:ℝ) < 1 / v.length)]
  field_simp

/-- **C1.** For every tick executed while running, the new velocity is
the old velocity plus `dt · (gravity + drag)` with `dt = 0.016 s`,
gravity `(0, -9.8, 0)`, and the drag term of magnitude
`0.5 · rho · |v|² · C_d · area` multiplied by `mass`, directed opposite
the old velocity; the new position is the old position plus `dt` times
the already-updated velocity. -/
theorem tick_update_rule (o : Options) (s : Sim) (h : s.landed = false) :
    (step o s).vel
      = s.vel.add ((gravity.add (specDragAccel o s.vel)).multiplyScalar 0.016) ∧
    (step o s).pos = s.pos.add ((step o s).vel.multiplyScalar 0.016) := by
  rw [step_vel_of_running h, step_pos_of_running h]
  constructor
  · unfold stepVel specDragAccel gravity
    unfold Vec3.add Vec3.multiplyScalar Vec3.addScaledVector Vec3.negate Vec3.clone
    ext <;> simp [dts, dt] <;> ring
  · unfold stepPos
    unfold Vec3.add Vec3.multiplyScalar Vec3.addScaledVector
    ext <;> norm_num [dts, dt]

/-- Witness for `tick_update_rule` at the pre-start state. -/
theorem tick_update_rule_witness :
    initialSim.landed = false ∧
    ((step demoOptions initialSim).vel
      = initialSim.vel.add
        ((gravity.add (specDragAccel demoOptions initialSim.vel)).multiplyScalar 0.016) ∧
    (step demoOptions initialSim).pos
      = initialSim.pos.add ((step demoOptions initialSim).vel.multiplyScalar 0.016)) :=
  ⟨rfl, tick_update_rule demoOptions initialSim rfl⟩

/-- **C2.** The simulation transitions from RUNNING to LANDED exactly
when the vertical position after a tick's position update is `≤ 0`,
and the transition cannot occur before the first tick: immediately
after `start` the simulation is not landed (the landing check lives
only in `step`). -/
theorem landing_transition (d : Vec3) (o o' : Options) (prev s : Sim)
    (h : s.landed = false) :
    (start d o prev).landed = false ∧
    ((step o' s).landed = true ↔ (stepPos o' s.pos s.vel).y ≤ 0) :=
  ⟨rfl, step_landed_iff h⟩

/-- Witness for `landing_transition` at the pre-start state. -/
theorem landing_transition_witness :
    initialSim.landed = false ∧
    ((start ⟨0, 1, 0⟩ demoOptions initialSim).landed = false ∧
      ((step demoOptions initialSim).landed = true ↔
        (stepPos demoOptions initialSim.pos initialSim.vel).y ≤ 0)) :=
  ⟨rfl, landing_transition ⟨0, 1, 0⟩ demoOptions demoOptions initialSim initialSim rfl⟩

/-- **C9.** A tick is total at zero velocity: the guarded normalization
sends the zero vector to itself, so the drag term vanishes and the tick
applies only gravity (no division by zero occurs; in this real-valued
model every component stays well defined). -/
theorem zero_velocity_tick (o : Options) (s : Sim)
    (h : s.landed = false) (hv : s.vel = Vec3.zero) :
    Vec3.normalize Vec3.zero = Vec3.zero ∧
    specDragAccel o Vec3.zero = Vec3.zero ∧
    (step o s).vel = gravity.multiplyScalar dts ∧
    (step o s).pos = s.pos.add ((step o s).vel.multiplyScalar dts) := by
  have hnorm : Vec3.normalize Vec3.zero = Vec3.zero := by
    unfold Vec3.normalize Vec3.divideScalar Vec3.multiplyScalar
    rw [if_pos (length_eq_zero_iff.mpr rfl)]
    ext <;> simp [Vec3.zero]
  have hdrag : specDragAccel o Vec3.zero = Vec3.zero := by
    unfold specDragAccel
    rw [hnorm]
    unfold Vec3.negate Vec3.multiplyScalar
    ext <;> simp [Vec3.zero]
  refine ⟨hnorm, hdrag, ?_, ?_⟩
  · rw [step_vel_of_running h, hv]
    unfold stepVel
    rw [show Vec3.zero.clone = Vec3.zero from rfl, hnorm]
    unfold gravity Vec3.negate Vec3.multiplyScalar Vec3.addScaledVector Vec3.lengthSq
    ext <;> simp [Vec3.zero]
  · rw [step_pos_of_running h, step_vel_of_running h]
    unfold stepPos
    unfold Vec3.add Vec3.multiplyScalar Vec3.addScaledVector
    ext <;> simp

/-- Witness for `zero_velocity_tick`: the pre-start state has zero
velocity. -/
theorem zero_velocity_tick_witness :
    (initialSim.landed = false ∧ initialSim.vel = Vec3.zero) ∧
    (Vec3.normalize Vec3.zero = Vec3.zero ∧
      specDragAccel demoOptions Vec3.zero = Vec3.zero ∧
      (step demoOptions initialSim).vel = gravity.multiplyScalar dts ∧
      (step demoOptions initialSim).pos
        = initialSim.pos.add ((step demoOptions initialSim).vel.multiplyScalar dts)) :=
  ⟨⟨rfl, rfl⟩, zero_velocity_tick demoOptions initialSim rfl rfl⟩

/-- **C3.** For a nonzero throw direction and positive speed, `start`
sets the velocity to the normalized direction times the speed, so the
speed of the ball right after `start` is exactly `options.speed`
(exactly, in this real-valued model); `start` also resets the position
to the origin and clears the recorded and rendered paths. -/
theorem start_velocity_magnitude (d : Vec3) (o : Options) (prev : Sim)
    (hd : d ≠ Vec3.zero) (hs : 0 < o.speed) :
    (start d o prev).vel.length = o.speed ∧
    (start d o prev).pos = Vec3.zero ∧
    (start d o prev).pathPoints = [] ∧
    (start d o prev).renderPath = [] := by
  refine ⟨?_, rfl, rfl, rfl⟩
  show ((Vec3.normalize d).multiplyScalar o.speed).length = o.speed
  rw [length_multiplyScalar, length_normalize hd, mul_one, abs_of_pos hs]

/-- Witness for `start_velocity_magnitude` with the default options and
the default throw direction `(0, 1, 0)`. -/
theorem start_velocity_magnitude_witness :
    ((⟨0, 1, 0⟩ : Vec3) ≠ Vec3.zero ∧ 0 < demoOptions.speed) ∧
    ((start ⟨0, 1, 0⟩ demoOptions initialSim).vel.length = demoOptions.speed ∧
      (start ⟨0, 1, 0⟩ demoOptions initialSim).pos = Vec3.zero ∧
      (start ⟨0, 1, 0⟩ demoOptions initialSim).pathPoints = [] ∧
      (start ⟨0, 1, 0⟩ demoOptions initialSim).renderPath = []) := by
  have hd : (⟨0, 1, 0⟩ : Vec3) ≠ Vec3.zero := by
    intro hcontra
    have := congrArg Vec3.y hcontra
    norm_num [Vec3.zero] at this
  have hs : 0 < demoOptions.speed := by norm_num [demoOptions]
  exact ⟨⟨hd, hs⟩, start_velocity_magnitude ⟨0, 1, 0⟩ demoOptions initialSim hd hs⟩

/-! Trace lemmas: what a run that is still in flight, or has just
landed, has recorded. -/

/-- While no tick has landed yet, the recorded path after `k` ticks is
exactly the positions at the start of ticks `0, …, k-1`. -/
lemma run_pathPoints (o : Options) (s0 : Sim) (hpath : s0.pathPoints = []) :
    ∀ k, (∀ j < k, (simIter o s0 j).landed = false) →
      (simIter o s0 k).pathPoints
        = (List.range k).map (fun j => (simIter o s0 j).pos) := by
  intro k
  induction k with
  | zero => intro _; simpa using hpath
  | succ m ih =>
    intro hj
    have hm : (simIter o s0 m).landed = false := hj m (Nat.lt_succ_self m)
    have : simIter o s0 (m + 1) = step o (simIter o s0 m) := rfl
    rw [this, step_pathPoints_of_running hm,
      ih (fun j hjm => hj j (Nat.lt_succ_of_lt hjm)),
      List.range_succ, List.map_append]
    rfl

/-- When the run lands at tick `n` (landed afterwards, not before),
`animateEnd` finalizes the renderable path to the recorded path. -/
lemma run_renderPath (o : Options) (s0 : Sim) (hpath : s0.pathPoints = [])
    (hland : s0.landed = false) {n : Nat}
    (hn : (simIter o s0 n).landed = true)
    (hk : ∀ j < n, (simIter o s0 j).landed = false) :
    (simIter o s0 n).renderPath
      = (List.range n).map (fun j => (simIter o s0 j).pos) := by
  cases n with
  | zero => rw [show simIter o s0 0 = s0 from rfl, hland] at hn; cases hn
  | succ m =>
    have hm : (simIter o s0 m).landed = false := hk m (Nat.lt_succ_self m)
    have hstep : simIter o s0 (m + 1) = step o (simIter o s0 m) := rfl
    rw [hstep, step_renderPath_of_landing hm (hstep ▸ hn), ← hstep,
      run_pathPoints o s0 hpath (m + 1) (fun j hj => ?_)]
    rcases Nat.lt_succ_iff_lt_or_eq.mp hj with h | h
    · exact hk j (Nat.lt_succ_of_lt h)
    · exact h ▸ hm

/-- **C4.** For a completed throw that lands at tick `n` (running until
then), the finalized recorded path has exactly `(n - 1) + 1` points:
one point per executed tick, the landing tick included, each recorded
before that tick's position update. -/
theorem path_length_on_landing (d : Vec3) (o : Options) (prev : Sim) (n : Nat)
    (hn : (simIter o (start d o prev) n).landed = true)
    (hk : ∀ j < n, (simIter o (start d o prev) j).landed = false) :
    (simIter o (start d o prev) n).renderPath.length = n - 1 + 1 := by
  have h1 : 1 ≤ n := by
    by_contra hcontra
    have h0 : n = 0 := by omega
    rw [h0, show simIter o (start d o prev) 0 = start d o prev from rfl] at hn
    cases hn
  rw [run_renderPath o (start d o prev) rfl rfl hn hk,
    List.length_map, List.length_range]
  omega

/-- Witness for `path_length_on_landing`: with `speed = 0` the ball
lands on the first tick, and the finalized path has one point. -/
theorem path_length_on_landing_witness :
    ((simIter dropOptions (start ⟨0, 1, 0⟩ dropOptions initialSim) 1).landed = true ∧
      (∀ j < 1, (simIter dropOptions (start ⟨0, 1, 0⟩ dropOptions initialSim) j).landed
        = false)) ∧
    (simIter dropOptions (start ⟨0, 1, 0⟩ dropOptions initialSim) 1).renderPath.length
      = 1 - 1 + 1 := by
  have hn : (simIter dropOptions (start ⟨0, 1, 0⟩ dropOptions initialSim) 1).landed
      = true := by
    norm_num [simIter, step, stepPos, stepVel, start, dropOptions, initialSim,
      Vec3.zero, Vec3.clone, Vec3.normalize, Vec3.divideScalar, Vec3.multiplyScalar,
      Vec3.addScaledVector, Vec3.negate, Vec3.lengthSq, Vec3.length, dts, dt]
  have hk : ∀ j < 1,
      (simIter dropOptions (start ⟨0, 1, 0⟩ dropOptions initialSim) j).landed = false := by
    intro j hj
    have hj0 : j = 0 := by omega
    subst hj0
    rfl
  exact ⟨⟨hn, hk⟩, path_length_on_landing ⟨0, 1, 0⟩ dropOptions initialSim 1 hn hk⟩

/-- **C7.** Restarting discards the first run's path: `start` ignores
all prior state, so the run after a second `start` coincides with a run
from the pristine state, and the path finalized at the second landing
lists exactly the positions visited during the second run. -/
theorem restart_discards_first_path (sPrev : Sim) (d1 : Vec3) (o1 : Options)
    (k : Nat) (d2 : Vec3) (o2 : Options) (n : Nat)
    (hn : (simIter o2 (start d2 o2 (simIter o1 (start d1 o1 sPrev) k)) n).landed = true)
    (hk : ∀ j < n,
      (simIter o2 (start d2 o2 (simIter o1 (start d1 o1 sPrev) k)) j).landed = false) :
    (simIter o2 (start d2 o2 (simIter o1 (start d1 o1 sPrev) k)) n).renderPath
      = (List.range n).map
          (fun j => (simIter o2 (start d2 o2 (simIter o1 (start d1 o1 sPrev) k)) j).pos) ∧
    simIter o2 (start d2 o2 (simIter o1 (start d1 o1 sPrev) k)) n
      = simIter o2 (start d2 o2 initialSim) n :=
  ⟨run_renderPath o2 _ rfl rfl hn hk, rfl⟩

/-- Witness for `restart_discards_first_path`: a drop, then a second
drop started on top of the finished first one. -/
theorem restart_discards_first_path_witness :
    ((simIter dropOptions
        (start ⟨1, 0, 0⟩ dropOptions
          (simIter dropOptions (start ⟨0, 1, 0⟩ dropOptions initialSim) 1)) 1).landed
      = true ∧
      (∀ j < 1, (simIter dropOptions
        (start ⟨1, 0, 0⟩ dropOptions
          (simIter dropOptions (start ⟨0, 1, 0⟩ dropOptions initialSim) 1)) j).landed
        = false)) ∧
    ((simIter dropOptions
        (start ⟨1, 0, 0⟩ dropOptions
          (simIter dropOptions (start ⟨0, 1, 0⟩ dropOptions initialSim) 1)) 1).renderPath
      = (List.range 1).map
          (fun j => (simIter dropOptions
            (start ⟨1, 0, 0⟩ dropOptions
              (simIter dropOptions (start ⟨0, 1, 0⟩ dropOptions initialSim) 1)) j).pos) ∧
      simIter dropOptions
        (start ⟨1, 0, 0⟩ dropOptions
          (simIter dropOptions (start ⟨0, 1, 0⟩ dropOptions initialSim) 1)) 1
        = simIter dropOptions (start ⟨1, 0, 0⟩ dropOptions initialSim) 1) := by
  have hn : (simIter dropOptions
      (start ⟨1, 0, 0⟩ dropOptions
        (simIter dropOptions (start ⟨0, 1, 0⟩ dropOptions initialSim) 1)) 1).landed
      = true := by
    norm_num [simIter, step, stepPos, stepVel, start, dropOptions, initialSim,
      Vec3.zero, Vec3.clone, Vec3.normalize, Vec3.divideScalar, Vec3.multiplyScalar,
      Vec3.addScaledVector, Vec3.negate, Vec3.lengthSq, Vec3.length, dts, dt]
  have hk : ∀ j < 1, (simIter dropOptions
      (start ⟨1, 0, 0⟩ dropOptions
        (simIter dropOptions (start ⟨0, 1, 0⟩ dropOptions initialSim) 1)) j).landed
      = false := by
    intro j hj
    have hj0 : j = 0 := by omega
    subst hj0
    rfl
  exact ⟨⟨hn, hk⟩,
    restart_discards_first_path initialSim
      ⟨0, 1, 0⟩ dropOptions 1 ⟨1, 0, 0⟩ dropOptions 1 hn hk⟩

/-- **C10.** The first point of the recorded path of any run is the
origin: `start` puts the ball at the origin and the first tick records
the position before updating it. -/
theorem first_path_point_is_origin (d : Vec3) (o : Options) (prev : Sim)
    (n : Nat) (hn : 1 ≤ n) :
    (simIter o (start d o prev) n).pathPoints.head? = some Vec3.zero := by
  induction n with
  | zero => cases hn
  | succ m ih =>
    rcases Nat.eq_or_lt_of_le hn with h1 | h1
    · rw [show m + 1 = 1 by omega]
      rw [show simIter o (start d o prev) 1 = step o (start d o prev) from rfl,
        step_pathPoints_of_running rfl]
      rfl
    · have hm : 1 ≤ m := by omega
      have hstep : simIter o (start d o prev) (m + 1)
          = step o (simIter o (start d o prev) m) := rfl
      cases hcase : (simIter o (start d o prev) m).landed with
      | true => rw [hstep, step_of_landed hcase]; exact ih hm
      | false =>
        rw [hstep, step_pathPoints_of_running hcase,
          List.head?_append_of_ne_nil _ ?_]
        · exact ih hm
        · intro hnil
          rw [hnil] at ih
          exact Option.noConfusion (ih hm)

/-- Witness for `first_path_point_is_origin` with the default options,
one tick in. -/
theorem first_path_point_is_origin_witness :
    1 ≤ 1 ∧
    (simIter demoOptions (start ⟨0, 1, 0⟩ demoOptions initialSim) 1).pathPoints.head?
      = some Vec3.zero :=
  ⟨Nat.le_refl 1,
    first_path_point_is_origin ⟨0, 1, 0⟩ demoOptions initialSim 1 (Nat.le_refl 1)⟩

/-! Camera-transition lemmas. -/

lemma animTick_target_of_active {t : Trans} (h : t.active = true) :
    (animTick t).target = t.target.lerp t.center 0.1 := by
  simp only [animTick, h, if_true]
  split <;> rfl

lemma animTick_camPos_of_active {t : Trans} (h : t.active = true) :
    (animTick t).camPos
      = ⟨(t.target.lerp t.center 0.1).x, max t.dist 2, (t.target.lerp t.center 0.1).z⟩ := by
  simp only [animTick, h, if_true]
  split <;> rfl

lemma animTick_camRot_of_active {t : Trans} (h : t.active = true) :
    (animTick t).camRot = ⟨0, -1, 1⟩ := by
  simp only [animTick, h, if_true]
  split <;> rfl

lemma animTick_center (t : Trans) : (animTick t).center = t.center := by
  simp only [animTick]
  split
  · split <;> rfl
  · rfl

lemma animTick_dist (t : Trans) : (animTick t).dist = t.dist := by
  simp only [animTick]
  split
  · split <;> rfl
  · rfl

/-- Counter invariant of the transition: through step `transLength` the
frame counter equals the number of elapsed steps, the entry-time `dist`
and `center` are untouched, the interval is live with orbit control
disabled strictly before step `transLength`, and exactly at step
`transLength` the interval is stopped and orbit control re-enabled. -/
lemma animIter_invariant (landing g0 c0 r0 : Vec3) :
    ∀ k ≤ transLength,
      (animIter (animateEndEnter landing g0 c0 r0) k).frames = k ∧
      (animIter (animateEndEnter landing g0 c0 r0) k).center
        = (animateEndEnter landing g0 c0 r0).center ∧
      (animIter (animateEndEnter landing g0 c0 r0) k).dist
        = (animateEndEnter landing g0 c0 r0).dist ∧
      (if k = transLength then
        (animIter (animateEndEnter landing g0 c0 r0) k).active = false ∧
        (animIter (animateEndEnter landing g0 c0 r0) k).orbitEnabled = true
      else
        (animIter (animateEndEnter landing g0 c0 r0) k).active = true ∧
        (animIter (animateEndEnter landing g0 c0 r0) k).orbitEnabled = false) := by
  intro k
  induction k with
  | zero =>
    intro _
    refine ⟨rfl, rfl, rfl, ?_⟩
    rw [if_neg (by simp [transLength])]
    exact ⟨rfl, rfl⟩
  | succ m ih =>
    intro hm1
    have hmne : m ≠ transLength := by omega
    obtain ⟨hf, hc, hd, hrest⟩ := ih (by omega)
    rw [if_neg hmne] at hrest
    obtain ⟨hact, horb⟩ := hrest
    have hstep : animIter (animateEndEnter landing g0 c0 r0) (m + 1)
        = animTick (animIter (animateEndEnter landing g0 c0 r0) m) := rfl
    refine ⟨?_, ?_, ?_, ?_⟩
    · rw [hstep]
      simp only [animTick, hact, if_true]
      split <;> simp [hf]
    · rw [hstep, animTick_center, hc]
    · rw [hstep, animTick_dist, hd]
    · rw [hstep]
      simp only [animTick, hact, if_true, hf]
      by_cases h40 : m + 1 = transLength
      · rw [if_pos h40, if_pos h40]
        exact ⟨rfl, rfl⟩
      · rw [if_neg h40, if_neg h40]
        exact ⟨rfl, horb⟩

/-- **C5.** For every landing, the camera transition runs exactly
`transLength = 40` steps: orbit control is disabled on entry and stays
disabled with the interval live through all 40 steps; at step 40 the
interval is cleared and orbit control re-enabled. -/
theorem camera_transition_forty_steps (landing g0 c0 r0 : Vec3) :
    (animateEndEnter landing g0 c0 r0).orbitEnabled = false ∧
    (∀ k < transLength,
      (animIter (animateEndEnter landing g0 c0 r0) k).active = true ∧
      (animIter (animateEndEnter landing g0 c0 r0) k).orbitEnabled = false) ∧
    (animIter (animateEndEnter landing g0 c0 r0) transLength).active = false ∧
    (animIter (animateEndEnter landing g0 c0 r0) transLength).orbitEnabled = true := by
  refine ⟨rfl, ?_, ?_, ?_⟩
  · intro k hk
    have h := (animIter_invariant landing g0 c0 r0 k (Nat.le_of_lt hk)).2.2.2
    rw [if_neg (Nat.ne_of_lt hk)] at h
    exact h
  · have h := (animIter_invariant landing g0 c0 r0 transLength (Nat.le_refl _)).2.2.2
    rw [if_pos rfl] at h
    exact h.1
  · have h := (animIter_invariant landing g0 c0 r0 transLength (Nat.le_refl _)).2.2.2
    rw [if_pos rfl] at h
    exact h.2

/-- Witness for `camera_transition_forty_steps` at a concrete landing
point, checking step 0 of the bounded clause. -/
theorem camera_transition_forty_steps_witness :
    (0 < transLength ∧
      (animateEndEnter ⟨1, 0, 1⟩ Vec3.zero Vec3.zero Vec3.zero).orbitEnabled = false) ∧
    ((animIter (animateEndEnter ⟨1, 0, 1⟩ Vec3.zero Vec3.zero Vec3.zero) 0).active = true ∧
      (animIter (animateEndEnter ⟨1, 0, 1⟩ Vec3.zero Vec3.zero Vec3.zero) 0).orbitEnabled
        = false) ∧
    (animIter (animateEndEnter ⟨1, 0, 1⟩ Vec3.zero Vec3.zero Vec3.zero) transLength).active
      = false ∧
    (animIter (animateEndEnter ⟨1, 0, 1⟩ Vec3.zero Vec3.zero Vec3.zero)
      transLength).orbitEnabled = true := by
  have h := camera_transition_forty_steps ⟨1, 0, 1⟩ Vec3.zero Vec3.zero Vec3.zero
  exact ⟨⟨by decide, h.1⟩, h.2.1 0 (by decide), h.2.2.1, h.2.2.2⟩

/-- Repeated interpolation with factor `0.1` toward the fixed point
`center = 0.5 · landing` is an exponential approach: after `k` steps
the target is `center + 0.9^k · (target₀ - center)`. -/
lemma animIter_target (landing g0 c0 r0 : Vec3) :
    ∀ k ≤ transLength,
      (animIter (animateEndEnter landing g0 c0 r0) k).target
        = (landing.multiplyScalar 0.5).add
            ((g0.sub (landing.multiplyScalar 0.5)).multiplyScalar (0.9 ^ k)) := by
  intro k
  induction k with
  | zero =>
    intro _
    show g0 = _
    unfold Vec3.add Vec3.sub Vec3.multiplyScalar
    ext <;> simp
  | succ m ih =>
    intro hm1
    have hlt : m < transLength := by omega
    obtain ⟨_, hc, _, hrest⟩ := animIter_invariant landing g0 c0 r0 m (Nat.le_of_lt hlt)
    rw [if_neg (Nat.ne_of_lt hlt)] at hrest
    have hstep : animIter (animateEndEnter landing g0 c0 r0) (m + 1)
        = animTick (animIter (animateEndEnter landing g0 c0 r0) m) := rfl
    rw [hstep, animTick_target_of_active hrest.1, hc, ih (Nat.le_of_lt hlt)]
    show Vec3.lerp _ (Vec3.multiplyScalar (Vec3.clone landing) 0.5) _ = _
    unfold Vec3.lerp Vec3.add Vec3.sub Vec3.multiplyScalar Vec3.clone
    ext <;> (simp only []; rw [pow_succ]; ring)

/-- **C6.** Each camera-transition step lerps the orbit target toward
`center = 0.5 · landing` with factor `0.1` (so after `k` steps the
target is `center + 0.9^k · (target₀ - center)`, an exponential
approach), copies the target into the camera position with the height
overwritten by `max dist 2` — where `dist`, fixed at transition entry,
is the landing position's distance from the origin — and sets the
fixed tilted rotation `(0, -1, 1)`. -/
theorem camera_transition_step_geometry (t : Trans) (h : t.active = true)
    (landing g0 c0 r0 : Vec3) (k : Nat) (hk : k ≤ transLength) :
    (animTick t).target = t.target.lerp t.center 0.1 ∧
    (animTick t).camPos
      = ⟨(t.target.lerp t.center 0.1).x, max t.dist 2, (t.target.lerp t.center 0.1).z⟩ ∧
    (animTick t).camRot = ⟨0, -1, 1⟩ ∧
    (animateEndEnter landing g0 c0 r0).dist = landing.length ∧
    (animateEndEnter landing g0 c0 r0).center = landing.multiplyScalar 0.5 ∧
    (animIter (animateEndEnter landing g0 c0 r0) k).target
      = (landing.multiplyScalar 0.5).add
          ((g0.sub (landing.multiplyScalar 0.5)).multiplyScalar (0.9 ^ k)) :=
  ⟨animTick_target_of_active h, animTick_camPos_of_active h,
   animTick_camRot_of_active h, rfl, rfl, animIter_target landing g0 c0 r0 k hk⟩

/-- Witness for `camera_transition_step_geometry` at a concrete
transition entry and `k = 1`. -/
theorem camera_transition_step_geometry_witness :
    ((animateEndEnter ⟨1, 0, 1⟩ Vec3.zero Vec3.zero Vec3.zero).active = true ∧
      1 ≤ transLength) ∧
    ((animTick (animateEndEnter ⟨1, 0, 1⟩ Vec3.zero Vec3.zero Vec3.zero)).target
      = (animateEndEnter ⟨1, 0, 1⟩ Vec3.zero Vec3.zero Vec3.zero).target.lerp
          (animateEndEnter ⟨1, 0, 1⟩ Vec3.zero Vec3.zero Vec3.zero).center 0.1 ∧
    (animTick (animateEndEnter ⟨1, 0, 1⟩ Vec3.zero Vec3.zero Vec3.zero)).camPos
      = ⟨((animateEndEnter ⟨1, 0, 1⟩ Vec3.zero Vec3.zero Vec3.zero).target.lerp
            (animateEndEnter ⟨1, 0, 1⟩ Vec3.zero Vec3.zero Vec3.zero).center 0.1).x,
          max (animateEndEnter ⟨1, 0, 1⟩ Vec3.zero Vec3.zero Vec3.zero).dist 2,
          ((animateEndEnter ⟨1, 0, 1⟩ Vec3.zero Vec3.zero Vec3.zero).target.lerp
            (animateEndEnter ⟨1, 0, 1⟩ Vec3.zero Vec3.zero Vec3.zero).center 0.1).z⟩ ∧
    (animTick (animateEndEnter ⟨1, 0, 1⟩ Vec3.zero Vec3.zero Vec3.zero)).camRot
      = ⟨0, -1, 1⟩ ∧
    (animateEndEnter ⟨1, 0, 1⟩ Vec3.zero Vec3.zero Vec3.zero).dist
      = Vec3.length ⟨1, 0, 1⟩ ∧
    (animateEndEnter ⟨1, 0, 1⟩ Vec3.zero Vec3.zero Vec3.zero).center
      = Vec3.multiplyScalar ⟨1, 0, 1⟩ 0.5 ∧
    (animIter (animateEndEnter ⟨1, 0, 1⟩ Vec3.zero Vec3.zero Vec3.zero) 1).target
      = (Vec3.multiplyScalar ⟨1, 0, 1⟩ 0.5).add
          ((Vec3.zero.sub (Vec3.multiplyScalar ⟨1, 0, 1⟩ 0.5)).multiplyScalar (0.9 ^ 1))) :=
  ⟨⟨rfl, by decide⟩,
    camera_transition_step_geometry (animateEndEnter ⟨1, 0, 1⟩ Vec3.zero Vec3.zero Vec3.zero)
      rfl ⟨1, 0, 1⟩ Vec3.zero Vec3.zero Vec3.zero 1 (by decide)⟩

end Baseball

namespace Baseball.Timers

/-! Invariant preservation for the timer model. -/

lemma inv_init : Inv init := by
  refine ⟨?_, ?_, ?_, ?_, ?_⟩ <;> simp [init, simCount]

lemma clearTimer_live (w : TimerWorld) (i : Option Nat) :
    (clearTimer w i).live = w.live.filter (fun p => decide (some p.1 ≠ i)) := rfl

lemma sim_filter_cleared {w : TimerWorld} (hw : Inv w) :
    (clearTimer w w.simulationInterval).live.filter
        (fun p => decide (p.2 = TKind.sim)) = [] := by
  rw [clearTimer_live]
  refine List.filter_eq_nil_iff.mpr ?_
  intro p hp
  obtain ⟨hmem, hpred⟩ := List.mem_filter.mp hp
  intro hsim
  exact (of_decide_eq_true hpred) (hw.1 p hmem (of_decide_eq_true hsim))

lemma inv_startTimers {w : TimerWorld} (hw : Inv w) : Inv (startTimers w) := by
  obtain ⟨h1, h2, h3, h4, h5⟩ := hw
  refine ⟨?_, ?_, ?_, ?_, ?_⟩
  · intro p hp hsim
    rcases List.mem_append.mp hp with hin | hin
    · obtain ⟨hmem, hpred⟩ := List.mem_filter.mp hin
      exact absurd (h1 p hmem hsim) (of_decide_eq_true hpred)
    · rw [List.mem_singleton.mp hin]
      rfl
  · show ((_ ++ [(w.nextId, TKind.sim)]).filter _).length ≤ 1
    rw [List.filter_append, sim_filter_cleared ⟨h1, h2, h3, h4, h5⟩]
    simp
  · intro p hp
    rcases List.mem_append.mp hp with hin | hin
    · exact Nat.lt_succ_of_lt (h3 p (List.mem_filter.mp hin).1)
    · rw [List.mem_singleton.mp hin]; exact Nat.lt_succ_self _
  · intro i hi
    rw [← Option.some.inj hi]
    exact Nat.lt_succ_self _
  · intro p hp hanim
    rcases List.mem_append.mp hp with hin | hin
    · intro hcontra
      exact Nat.ne_of_lt (h3 p (List.mem_filter.mp hin).1) (Option.some.inj hcontra)
    · rw [List.mem_singleton.mp hin] at hanim
      cases hanim

lemma inv_animateEndTimers {w : TimerWorld} (hw : Inv w) : Inv (animateEndTimers w) := by
  obtain ⟨h1, h2, h3, h4, h5⟩ := hw
  refine ⟨?_, ?_, ?_, ?_, ?_⟩
  · intro p hp hsim
    rcases List.mem_append.mp hp with hin | hin
    · obtain ⟨hmem, hpred⟩ := List.mem_filter.mp hin
      exact absurd (h1 p hmem hsim) (of_decide_eq_true hpred)
    · rw [List.mem_singleton.mp hin] at hsim
      cases hsim
  · show ((_ ++ [(w.nextId, TKind.anim)]).filter _).length ≤ 1
    rw [List.filter_append, sim_filter_cleared ⟨h1, h2, h3, h4, h5⟩]
    simp
  · intro p hp
    rcases List.mem_append.mp hp with hin | hin
    · exact Nat.lt_succ_of_lt (h3 p (List.mem_filter.mp hin).1)
    · rw [List.mem_singleton.mp hin]; exact Nat.lt_succ_self _
  · intro i hi
    exact Nat.lt_succ_of_lt (h4 i hi)
  · intro p hp _
    rcases List.mem_append.mp hp with hin | hin
    · exact of_decide_eq_true (List.mem_filter.mp hin).2
    · rw [List.mem_singleton.mp hin]
      intro hcontra
      exact absurd (h4 _ hcontra.symm) (Nat.lt_irrefl _)

lemma length_filter_and_le {α : Type} (l : List α) (p q : α → Bool) :
    (l.filter fun a => p a && q a).length ≤ (l.filter p).length := by
  induction l with
  | nil => simp
  | cons a t ih =>
    by_cases hp : p a = true
    · by_cases hq : q a = true
      · simp only [List.filter_cons, hp, hq, Bool.and_self, if_true]
        simpa using ih
      · simp only [List.filter_cons, hp, Bool.true_and]
        rw [Bool.eq_false_iff.mpr hq]
        simp only [if_false, if_true, List.length_cons]
        exact Nat.le_succ_of_le ih
    · simp only [List.filter_cons, Bool.eq_false_iff.mpr hp, Bool.false_and, if_false]
      exact ih

lemma inv_animFinishTimers {w : TimerWorld} (hw : Inv w) (i : Nat) :
    Inv (animFinishTimers w i) := by
  obtain ⟨h1, h2, h3, h4, h5⟩ := hw
  refine ⟨?_, ?_, ?_, ?_, ?_⟩
  · intro p hp
    exact h1 p (List.mem_filter.mp hp).1
  · show ((w.live.filter _).filter _).length ≤ 1
    rw [List.filter_filter]
    exact Nat.le_trans (length_filter_and_le w.live _ _) h2
  · intro p hp
    exact h3 p (List.mem_filter.mp hp).1
  · exact h4
  · intro p hp
    exact h5 p (List.mem_filter.mp hp).1

lemma inv_applyOp {w : TimerWorld} (hw : Inv w) (op : TOp) : Inv (applyOp w op) := by
  cases op with
  | start => exact inv_startTimers hw
  | animEnd => exact inv_animateEndTimers hw
  | animFinish i => exact inv_animFinishTimers hw i

lemma inv_runOps {w : TimerWorld} (hw : Inv w) (ops : List TOp) : Inv (runOps w ops) := by
  induction ops generalizing w with
  | nil => exact hw
  | cons op rest ih => exact ih (inv_applyOp hw op)

/-- **C8.** `start` clears the current simulation interval before
registering the new one, so it leaves exactly one live simulation
interval, and every event sequence from the initial state keeps at most
one simulation interval alive; `start` touches no camera-transition
interval, so a transition running when a new throw starts keeps running
alongside the new simulation interval. -/
theorem start_timer_discipline (w : TimerWorld) (hw : Inv w) (ops : List TOp) :
    simCount (startTimers w) = 1 ∧
    animTimers (startTimers w) = animTimers w ∧
    simCount (runOps init ops) ≤ 1 := by
  obtain ⟨h1, h2, h3, h4, h5⟩ := hw
  refine ⟨?_, ?_, (inv_runOps inv_init ops).2.1⟩
  · show ((_ ++ [(w.nextId, TKind.sim)]).filter _).length = 1
    rw [List.filter_append, sim_filter_cleared ⟨h1, h2, h3, h4, h5⟩]
    simp
  · show ((_ ++ [(w.nextId, TKind.sim)]).filter _) = _
    rw [List.filter_append, clearTimer_live, List.filter_filter]
    have hsingle :
        [((w.nextId, TKind.sim) : Nat × TKind)].filter
          (fun p => decide (p.2 = TKind.anim)) = [] := by simp
    rw [hsingle, List.append_nil]
    refine List.filter_congr ?_
    intro p hp
    by_cases hanim : p.2 = TKind.anim
    · rw [decide_eq_true hanim, decide_eq_true (h5 p hp hanim), Bool.and_self]
    · rw [decide_eq_false hanim, Bool.false_and]

/-- Witness for `start_timer_discipline`: a world holding one live
camera-transition interval (id 1) with `simulationInterval` pointing at
the already-cleared id 0. -/
theorem start_timer_discipline_witness :
    Inv ⟨[(1, TKind.anim)], some 0, 2⟩ ∧
    (simCount (startTimers ⟨[(1, TKind.anim)], some 0, 2⟩) = 1 ∧
      animTimers (startTimers ⟨[(1, TKind.anim)], some 0, 2⟩)
        = animTimers ⟨[(1, TKind.anim)], some 0, 2⟩ ∧
      simCount (runOps init [TOp.start, TOp.animEnd, TOp.start]) ≤ 1) := by
  have hw : Inv ⟨[(1, TKind.anim)], some 0, 2⟩ := by
    refine ⟨?_, ?_, ?_, ?_, ?_⟩
    · intro p hp hsim
      rw [List.mem_singleton.mp hp] at hsim
      cases hsim
    · show (List.filter _ _).length ≤ 1
      simp [simCount]
    · intro p hp
      rw [List.mem_singleton.mp hp]
      exact Nat.lt_succ_self 1
    · intro i hi
      rw [← Option.some.inj hi]
      exact Nat.zero_lt_two
    · intro p hp _
      rw [List.mem_singleton.mp hp]
      intro hcontra
      cases Option.some.inj hcontra
  exact ⟨hw, start_timer_discipline ⟨[(1, TKind.anim)], some 0, 2⟩ hw
    [TOp.start, TOp.animEnd, TOp.start]⟩

end Baseball.Timers
